import Mathlib

/-!
Verification of the tutorial notebooks' self-contained numerical logic:
the Lindhard "bubble" computed by Fourier transform (TPSC notebook, C++
cell `bubble`), grid-valued Green-function evaluation and partial
evaluation, and the DMFT self-consistency loops of the one- and
two-orbital CTQMC scripts (`one_band.py`, `two_band.py`).

Scalar values that are complex doubles in the source are modelled over an
arbitrary field `F` (instantiated at `ℚ` for concrete evaluation, at `ℂ`
for the Fourier development); mesh arithmetic (imaginary-time points,
interpolation weights) is carried out exactly in `ℚ`.
-/

namespace Tutorials

/-- Matsubara/imaginary-time statistics: `Fermion` (anti-periodic) or
`Boson` (periodic). -/
inductive Statistic : Type where
  | Fermion : Statistic
  | Boson : Statistic
deriving DecidableEq, Repr

/-- A Matsubara-frequency axis: inverse temperature, statistics, number of
points (`MeshImFreq`). -/
structure FreqMesh : Type where
  beta : ℚ
  statistic : Statistic
  size : ℕ
deriving DecidableEq, Repr

/-- An imaginary-time axis: inverse temperature, statistics, number of
points; the points are `τ_j = β·j/(size−1)`, a linear mesh on `[0, β]`
(`MeshImTime` / `gf_mesh<imtime>`). -/
structure TimeMesh : Type where
  beta : ℚ
  statistic : Statistic
  size : ℕ
deriving DecidableEq, Repr

/-- The `(k, iω) → (r, τ)` Fourier transform of the framework
(`make_gf_from_fourier<0,1>`) carries the Matsubara axis to an
imaginary-time axis with the same inverse temperature and the same
statistics; the number of τ points is fixed by the transform (modelled as
`2·n_iw + 1`). -/
def fourierTimeMesh (mw : FreqMesh) : TimeMesh :=
  ⟨mw.beta, mw.statistic, 2 * mw.size + 1⟩

/-- Mirror of `auto mtb = gf_mesh<imtime>{beta, Boson, mt.size()};` in
`bubble`: a fresh time mesh with the same β, bosonic statistics, and the
same number of points as `mt`. -/
def mtbOf (mt : TimeMesh) : TimeMesh :=
  ⟨mt.beta, Statistic.Boson, mt.size⟩

/-- The time mesh on which `bubble` builds `chi0`, as a function of the
input Green function's Matsubara axis: transform to imaginary time, then
replace the statistics by `Boson` keeping β and the point count. -/
def bubbleChiTimeMesh (mw : FreqMesh) : TimeMesh :=
  mtbOf (fourierTimeMesh mw)

/-! ## DMFT self-consistency loops (`one_band.py`, `two_band.py`)

The impurity solver `S.solve(...)` is an external Monte Carlo program; it
is modelled as an arbitrary function taking the current Weiss field
`S.G0_iw` to a pair `(S.G_iw, S.Sigma_iw)`.  Block Green functions are
functions from the block label (spin `Bool`, or spin × orbital) and the
Matsubara index to a scalar. -/

/-- Solver state of the single-orbital script: blocks `'up'`/`'down'`
(indexed by `Bool`, `true` = up), each a function of the Matsubara index. -/
structure SolverState1 (I F : Type) : Type where
  G0 : Bool → I → F
  G : Bool → I → F
  Sigma : Bool → I → F

/-- `g = 0.5 * ( S.G_iw['up'] + S.G_iw['down'] )` of `one_band.py`. -/
def symmG1 {I F : Type} [Field F] (st : SolverState1 I F) : I → F :=
  fun w => (1 / 2 : F) * (st.G true w + st.G false w)

/-- `inverse( iOmega_n + U/2.0 - t**2 * g )` of `one_band.py`, pointwise
on the Matsubara axis. -/
def scUpdate1 {I F : Type} [Field F] (iom : I → F) (U t : F) (g : I → F) : I → F :=
  fun w => (iom w + U / 2 - t ^ 2 * g w)⁻¹

/-- One iteration of the `one_band.py` DMFT loop: symmetrize
`g = 0.5*(G_up + G_down)`, assign `inverse(iOmega_n + U/2 - t²·g)` to
every block of `G0_iw`, then run the (opaque) impurity solver on the
updated Weiss field. -/
def oneBandIter {I F : Type} [Field F] (iom : I → F) (U t : F)
    (solve : (Bool → I → F) → (Bool → I → F) × (Bool → I → F))
    (st : SolverState1 I F) : SolverState1 I F :=
  let g := symmG1 st
  let G0new : Bool → I → F := fun _ => scUpdate1 iom U t g
  let sol := solve G0new
  ⟨G0new, sol.1, sol.2⟩

/-- Solver state of the two-orbital script: blocks
`'up-0'`, `'up-1'`, `'down-0'`, `'down-1'` indexed by `Bool × Fin 2`. -/
structure SolverState2 (I F : Type) : Type where
  G0 : Bool × Fin 2 → I → F
  G : Bool × Fin 2 → I → F
  Sigma : Bool × Fin 2 → I → F

/-- `g = 0.25 * ( S.G_iw['up-0'] + S.G_iw['up-1'] + S.G_iw['down-0'] +
S.G_iw['down-1'] )` of `two_band.py`. -/
def symmG2 {I F : Type} [Field F] (st : SolverState2 I F) : I → F :=
  fun w => (1 / 4 : F) *
    (st.G (true, 0) w + st.G (true, 1) w + st.G (false, 0) w + st.G (false, 1) w)

/-- `inverse(iOmega_n + mu - t**2 * g)` of `two_band.py`, pointwise. -/
def scUpdate2 {I F : Type} [Field F] (iom : I → F) (mu t : F) (g : I → F) : I → F :=
  fun w => (iom w + mu - t ^ 2 * g w)⁻¹

/-- One iteration `i` of the `two_band.py` DMFT loop: only when `i > 0`,
symmetrize over the four spin×orbital blocks and assign
`inverse(iOmega_n + mu - t²·g)` to every block of `G0_iw`; then run the
solver on the (possibly unchanged) Weiss field. -/
def twoBandIter {I F : Type} [Field F] (iom : I → F) (mu t : F)
    (solve : (Bool × Fin 2 → I → F) → (Bool × Fin 2 → I → F) × (Bool × Fin 2 → I → F))
    (i : ℕ) (st : SolverState2 I F) : SolverState2 I F :=
  let G0new : Bool × Fin 2 → I → F :=
    if 0 < i then fun _ => scUpdate2 iom mu t (symmG2 st) else st.G0
  let sol := solve G0new
  ⟨G0new, sol.1, sol.2⟩

/-- `n_loops = 10` of `one_band.py` and of `two_band.py`. -/
def n_loops : ℕ := 10

/-- `for i in range(n)`-style driver: iterate a step function `n` times
from state `s`, returning the list of the successive post-iteration
states. -/
def iterTrace {S : Type} (step : S → S) : ℕ → S → List S
  | 0, _ => []
  | n + 1, s => step s :: iterTrace step n (step s)

/-- Driver for an iteration-indexed step (the two-orbital loop consults
the iteration counter `i`): run `n` iterations starting at index `i0`. -/
def iterTraceIdx {S : Type} (step : ℕ → S → S) : ℕ → ℕ → S → List S
  | 0, _, _ => []
  | n + 1, i, s => step i s :: iterTraceIdx step n (i + 1) (step i s)

/-- The full `one_band.py` DMFT loop: `n_loops` iterations. -/
def oneBandLoop {I F : Type} [Field F] (iom : I → F) (U t : F)
    (solve : (Bool → I → F) → (Bool → I → F) × (Bool → I → F))
    (st0 : SolverState1 I F) : List (SolverState1 I F) :=
  iterTrace (oneBandIter iom U t solve) n_loops st0

/-- The full `two_band.py` DMFT loop: `n_loops` iterations, the iteration
counter starting at 0. -/
def twoBandLoop {I F : Type} [Field F] (iom : I → F) (mu t : F)
    (solve : (Bool × Fin 2 → I → F) → (Bool × Fin 2 → I → F) × (Bool × Fin 2 → I → F))
    (st0 : SolverState2 I F) : List (SolverState2 I F) :=
  iterTraceIdx (twoBandIter iom mu t solve) n_loops 0 st0

/-! ## The Lindhard bubble (`bubble`, TPSC notebook, C++ cell)

`grt = make_gf_from_fourier<0,1>(G0)` lives on a cyclic square lattice
(`N×N` sites, indices wrapping modulo `N`) times a fermionic
imaginary-time mesh (`nt` points `τ_j = β·j/(nt−1)` on `[0, β]`).  Its
stored data is modelled as a total function `ℤ → ℤ → ℤ → F` read at
indices `(x, y, j)` with `0 ≤ x, y < N` and `0 ≤ j < nt`.  Calling a
Green function (round parentheses in the C++, `grt(-r, beta - t)`)
evaluates it: lattice arguments wrap modulo the periodic lattice, and an
imaginary-time argument is evaluated by linear interpolation between its
two neighbouring mesh points. -/

/-- Mesh point `τ_j = β·j/(n−1)` of an `n`-point imaginary-time mesh on
`[0, β]` (position `j` taken as an integer index). -/
def tauPoint (beta : ℚ) (n : ℕ) (j : ℤ) : ℚ :=
  beta * j / ((n : ℚ) - 1)

/-- Evaluation of a function stored on an `n`-point imaginary-time mesh
at time `τ`: linear interpolation between the mesh points bracketing `τ`
(weights computed exactly in `ℚ` and cast into the scalar field). -/
def evalTau {F : Type} [Field F] (beta : ℚ) (n : ℕ) (g : ℤ → F) (tau : ℚ) : F :=
  ((1 - Int.fract (tau * ((n : ℚ) - 1) / beta) : ℚ) : F) * g ⌊tau * ((n : ℚ) - 1) / beta⌋
    + ((Int.fract (tau * ((n : ℚ) - 1) / beta) : ℚ) : F) * g (⌊tau * ((n : ℚ) - 1) / beta⌋ + 1)

/-- Evaluation of `grt` at a lattice vector `(x, y)` (wrapping modulo the
periodic `N×N` lattice) and an imaginary time `τ` (linear interpolation
on the `nt`-point fermionic time mesh). -/
def grtEval {F : Type} [Field F] (N nt : ℕ) (beta : ℚ)
    (g : ℤ → ℤ → ℤ → F) (x y : ℤ) (tau : ℚ) : F :=
  evalTau beta nt (fun j => g (x % (N : ℤ)) (y % (N : ℤ)) j) tau

/-- The loop body of `bubble`:
`chi0[r, t] = 2*grt(-r, beta - t) * grt(r, t)` for `r = (r1, r2)` on the
lattice mesh and `t` on the bosonic time mesh `mtb` (same β and same
number of points `nt` as the fermionic mesh, hence the same `τ_t`
values). -/
def chi0 {F : Type} [Field F] (N nt : ℕ) (beta : ℚ)
    (g : ℤ → ℤ → ℤ → F) (r1 r2 t : ℤ) : F :=
  2 * grtEval N nt beta g (-r1) (-r2) (beta - tauPoint beta nt t)
    * grtEval N nt beta g r1 r2 (tauPoint beta nt t)

/-! ## Grid-valued functions on (momentum, Matsubara frequency)

The evaluation and partial-evaluation machinery itself belongs to the
external framework (the notebooks only call it, e.g.
`G((pi,pi,0), 2)` and `Giw = G(k0, all)` with
`assert Giw.mesh == G.mesh[1]`); the definitions below are modelled from
the spec's contract.  Continuous momenta are written in fractional mesh
coordinates (grid points at the integers), since the physical unit
`2π/N` is irrational. -/

/-- Modelled from the spec: one-dimensional linear interpolation of a
grid function at a continuous coordinate `x` (grid points at the
integers, wrapping modulo the `N`-point periodic mesh), using the two
surrounding grid points. -/
def interp1 {F : Type} [Field F] (N : ℕ) (g : ℤ → F) (x : ℚ) : F :=
  ((1 - Int.fract x : ℚ) : F) * g (⌊x⌋ % (N : ℤ))
    + ((Int.fract x : ℚ) : F) * g ((⌊x⌋ + 1) % (N : ℤ))

/-- Modelled from the spec: multilinear (bilinear) interpolation on the
two-dimensional periodic momentum grid, obtained by nesting the
one-dimensional interpolation. -/
def interp2 {F : Type} [Field F] (N : ℕ) (g : ℤ → ℤ → F) (x y : ℚ) : F :=
  interp1 N (fun a => interp1 N (fun b => g a b) y) x

/-- A grid-valued function on the product mesh (momentum × Matsubara
frequency): linear size of the square momentum grid, the Matsubara axis,
and the densely stored values, read at `(kx, ky, n)` with
`0 ≤ kx, ky < nk`. -/
structure GfKW (F : Type) : Type where
  nk : ℕ
  mw : FreqMesh
  data : ℤ → ℤ → ℤ → F

/-- Modelled from the spec: evaluating a grid-valued function at a
continuous momentum `(x, y)` and an integer Matsubara index `n`:
multilinear interpolation in momentum over the surrounding grid points,
direct lookup (no interpolation) in the discrete frequency index. -/
def evalGf {F : Type} [Field F] (f : GfKW F) (x y : ℚ) (n : ℤ) : F :=
  interp2 f.nk (fun a b => f.data a b n) x y

/-- A grid-valued function over the Matsubara axis alone. -/
structure GfW (F : Type) : Type where
  mw : FreqMesh
  data : ℤ → F

/-- Modelled from the spec: `G(k0, all)` — fix the momentum `k0`,
producing a function over the remaining frequency axis that carries the
original frequency mesh and whose values are the momentum interpolation
of the original data at each Matsubara index. -/
def sliceAtK {F : Type} [Field F] (f : GfKW F) (k0 : ℚ × ℚ) : GfW F :=
  { mw := f.mw, data := fun n => evalGf f k0.1 k0.2 n }

/-! ## The discrete Fourier pair on the finite product grid

The transform `make_gf_from_fourier<0,1>` belongs to the external
framework; modelled from the spec: values on a finite
(momentum × frequency) grid, one exact discrete Fourier transform per
axis, with the backward transform carrying the `1/N` normalisation.
Grids of positive size `Nk+1`, `Nw+1` are indexed by `ZMod`. -/

/-- Modelled from the spec: the forward Fourier transform
(momentum, frequency) → (real space, imaginary time) of a grid-valued
function — the discrete Fourier transform applied along each of the two
axes of the finite product grid. -/
noncomputable def FourierForward (Nk Nw : ℕ)
    (f : ZMod (Nk + 1) → ZMod (Nw + 1) → ℂ) : ZMod (Nk + 1) → ZMod (Nw + 1) → ℂ :=
  ZMod.dft (fun k => ZMod.dft (f k))

/-- Modelled from the spec: the backward Fourier transform
(real space, imaginary time) → (momentum, frequency), the inverse
discrete Fourier transform applied along each axis. -/
noncomputable def FourierBack (Nk Nw : ℕ)
    (g : ZMod (Nk + 1) → ZMod (Nw + 1) → ℂ) : ZMod (Nk + 1) → ZMod (Nw + 1) → ℂ :=
  fun k => ZMod.dft.symm ((ZMod.dft.symm g) k)

/-! ## The two-orbital interaction operator

`h_int` of `two_band.py` and the Hubbard–Kanamori Hamiltonian `H_HK`
displayed in the notebook are second-quantised fermionic operator
expressions in the four modes (spin × orbital).  They are compared in
the (faithful) Fock representation on those four modes: a basis state is
an occupation function `Fin 4 → Bool`, creation/annihilation operators
act with the usual Jordan–Wigner sign, and coefficients — integer
combinations of `1`, `U` and `J` — are kept symbolic as triples
`(a, b, c)` standing for `a + b·U + c·J`. -/

/-- The mode `(spin, orbital)`, flattened as up-0, up-1, down-0, down-1
(`true` = up). -/
def mode (s : Bool) (o : Fin 2) : Fin 4 :=
  if s then o.castLE (by norm_num) else ⟨o.val + 2, by have := o.isLt; omega⟩

/-- A Fock basis state: the occupation of each of the four modes. -/
abbrev FockState : Type := Fin 4 → Bool

/-- Jordan–Wigner sign of mode `i` in state `s`: `(−1)^(number of
occupied modes below i)`. -/
def jwSign (i : Fin 4) (s : FockState) : ℤ :=
  if (Finset.univ.filter fun j => j < i ∧ s j = true).card % 2 = 0 then 1 else -1

/-- Apply one creation (`dag = true`) or annihilation operator for mode
`i` to a signed basis state; `none` when the state is annihilated. -/
def applyOp (dag : Bool) (i : Fin 4) (p : FockState × ℤ) : Option (FockState × ℤ) :=
  if dag then
    if p.1 i then none
    else some (Function.update p.1 i true, p.2 * jwSign i p.1)
  else
    if p.1 i then some (Function.update p.1 i false, p.2 * jwSign i p.1)
    else none

/-- A product of creation/annihilation operators, written left to right
(`true` = creation); it acts on a ket rightmost factor first. -/
abbrev OpWord : Type := List (Bool × Fin 4)

/-- Apply an operator word to a basis state. -/
def applyWord (w : OpWord) (s : FockState) : Option (FockState × ℤ) :=
  w.foldr (fun op acc => acc.bind (applyOp op.1 op.2)) (some (s, 1))

/-- A symbolic coefficient `a + b·U + c·J` with `a b c : ℤ`. -/
abbrev Coeff : Type := ℤ × ℤ × ℤ

/-- Scale a symbolic coefficient by a fermionic sign. -/
def scaleC (z : ℤ) (c : Coeff) : Coeff := (z * c.1, z * c.2.1, z * c.2.2)

/-- Add two symbolic coefficients. -/
def addC (c d : Coeff) : Coeff := (c.1 + d.1, c.2.1 + d.2.1, c.2.2 + d.2.2)

/-- The matrix element `⟨t| H |s⟩` of an operator given as a list of
(coefficient, word) terms, in the Fock basis. -/
def matrixElem (H : List (Coeff × OpWord)) (s t : FockState) : Coeff :=
  (H.map fun term =>
    match applyWord term.2 s with
    | some (t', sgn) => if t' = t then scaleC sgn term.1 else ((0, 0, 0) : Coeff)
    | none => ((0, 0, 0) : Coeff)).foldr addC ((0, 0, 0) : Coeff)

/-- The density operator `n(spin, orbital) = c† c` as a word. -/
def nWord (s : Bool) (o : Fin 2) : OpWord := [(true, mode s o), (false, mode s o)]

/-- The coefficient `U`. -/
def coeffU : Coeff := (0, 1, 0)

/-- The coefficient `U − 2J`. -/
def coeffUm2J : Coeff := (0, 1, -2)

/-- The coefficient `U − 3J`. -/
def coeffUm3J : Coeff := (0, 1, -3)

/-- The coefficient `J`. -/
def coeffJ : Coeff := (0, 0, 1)

/-- The coefficient `−J`. -/
def coeffNegJ : Coeff := (0, 0, -1)

/-- All ordered orbital pairs, as produced by
`product(range(n_orbitals), range(n_orbitals))` for `n_orbitals = 2`. -/
def orbPairs : List (Fin 2 × Fin 2) :=
  (List.finRange 2).flatMap fun o1 => (List.finRange 2).map fun o2 => (o1, o2)

/-- `h_int` as built by the four loops of `two_band.py` (`n_orbitals = 2`):
`U·n↑o·n↓o` per orbital; `(U−2J)·n↑o1·n↓o2` for `o1 ≠ o2`;
`(U−3J)·n↑o1·n↑o2` and `(U−3J)·n↓o1·n↓o2` for `o2 < o1`; and for
`o1 ≠ o2` the terms `−J·c†↑o1 c†↓o1 c↑o2 c↓o2` and
`−J·c†↑o1 c†↓o2 c↑o2 c↓o1`. -/
def hIntTerms : List (Coeff × OpWord) :=
  ((List.finRange 2).map fun o => (coeffU, nWord true o ++ nWord false o))
  ++ (orbPairs.filterMap fun p =>
        if p.1 = p.2 then none
        else some (coeffUm2J, nWord true p.1 ++ nWord false p.2))
  ++ (orbPairs.flatMap fun p =>
        if p.2 < p.1 then
          [(coeffUm3J, nWord true p.1 ++ nWord true p.2),
           (coeffUm3J, nWord false p.1 ++ nWord false p.2)]
        else [])
  ++ (orbPairs.flatMap fun p =>
        if p.1 = p.2 then []
        else
          [(coeffNegJ, [(true, mode true p.1), (true, mode false p.1),
                        (false, mode true p.2), (false, mode false p.2)]),
           (coeffNegJ, [(true, mode true p.1), (true, mode false p.2),
                        (false, mode true p.2), (false, mode false p.1)])])

/-- The Hubbard–Kanamori Hamiltonian `H_HK` exactly as displayed in the
two-orbital notebook:
`U Σᵢ nᵢ↑ nᵢ↓ + (U−2J) Σ_{i≠i'} nᵢ↑ nᵢ'↓ + (U−3J) Σ_{i<i',σ} nᵢσ nᵢ'σ`
`− J Σ_{i≠i'} a†ᵢ↑ aᵢ↓ a†ᵢ'↓ aᵢ'↑ + J Σ_{i≠i'} a†ᵢ↑ a†ᵢ↓ aᵢ'↓ aᵢ'↑`. -/
def hHKTerms : List (Coeff × OpWord) :=
  ((List.finRange 2).map fun i => (coeffU, nWord true i ++ nWord false i))
  ++ (orbPairs.filterMap fun p =>
        if p.1 = p.2 then none
        else some (coeffUm2J, nWord true p.1 ++ nWord false p.2))
  ++ (orbPairs.flatMap fun p =>
        if p.1 < p.2 then
          [(coeffUm3J, nWord true p.1 ++ nWord true p.2),
           (coeffUm3J, nWord false p.1 ++ nWord false p.2)]
        else [])
  ++ (orbPairs.filterMap fun p =>
        if p.1 = p.2 then none
        else some (coeffNegJ, [(true, mode true p.1), (false, mode false p.1),
                               (true, mode false p.2), (false, mode true p.2)]))
  ++ (orbPairs.filterMap fun p =>
        if p.1 = p.2 then none
        else some (coeffJ, [(true, mode true p.1), (true, mode false p.1),
                            (false, mode false p.2), (false, mode true p.2)]))

/-! ## Concrete instantiation data used by the witness theorems -/

/-- A concrete stored Green-function array on a 2×2 lattice with 2 time
points: `g(x, y, j) = x + 2y + 4j`. -/
def gW : ℤ → ℤ → ℤ → ℚ := fun x y j => x + 2 * y + 4 * j

/-- A concrete grid-valued function on a 2×2 momentum grid. -/
def fW : GfKW ℚ :=
  ⟨2, ⟨10, Statistic.Fermion, 5⟩, fun x y n => x + 2 * y + 4 * n⟩

/-- A concrete (trivial) impurity-solver stand-in for the single-orbital
loop: return the Weiss field itself for both `G` and `Σ`. -/
def wSolve1 : (Bool → Unit → ℚ) → (Bool → Unit → ℚ) × (Bool → Unit → ℚ) :=
  fun g0 => (g0, g0)

/-- A concrete initial solver state for the single-orbital loop. -/
def wSt1 : SolverState1 Unit ℚ :=
  ⟨fun _ _ => 0, fun _ _ => 1, fun _ _ => 0⟩

/-! ## Helper lemmas -/

lemma iterTrace_length {S : Type} (step : S → S) :
    ∀ (n : ℕ) (s : S), (iterTrace step n s).length = n
  | 0, _ => rfl
  | n + 1, s => by simp [iterTrace, iterTrace_length step n]

lemma iterTraceIdx_length {S : Type} (step : ℕ → S → S) :
    ∀ (n i : ℕ) (s : S), (iterTraceIdx step n i s).length = n
  | 0, _, _ => rfl
  | n + 1, i, s => by simp [iterTraceIdx, iterTraceIdx_length step n]

lemma natCast_sub_one_ne_zero {n : ℕ} (hn : 2 ≤ n) : ((n : ℚ) - 1) ≠ 0 := by
  have h2 : (2 : ℚ) ≤ (n : ℚ) := by exact_mod_cast hn
  linarith

lemma evalTau_tauPoint {F : Type} [Field F] (beta : ℚ) (n : ℕ) (g : ℤ → F) (k : ℤ)
    (hb : beta ≠ 0) (hn : 2 ≤ n) :
    evalTau beta n g (tauPoint beta n k) = g k := by
  have hne : ((n : ℚ) - 1) ≠ 0 := natCast_sub_one_ne_zero hn
  have hx : tauPoint beta n k * ((n : ℚ) - 1) / beta = (k : ℚ) := by
    unfold tauPoint
    field_simp
  unfold evalTau
  rw [hx, Int.fract_intCast, Int.floor_intCast]
  simp

lemma beta_sub_tauPoint (beta : ℚ) (n : ℕ) (t : ℤ) (hn : 2 ≤ n) :
    beta - tauPoint beta n t = tauPoint beta n ((n : ℤ) - 1 - t) := by
  have hne : ((n : ℚ) - 1) ≠ 0 := natCast_sub_one_ne_zero hn
  unfold tauPoint
  push_cast
  field_simp
  ring

lemma neg_emod_eq_sub (N r : ℤ) : (-r) % N = (N - r) % N := by
  conv_rhs => rw [show N - r = -r + N * 1 by ring]
  rw [Int.add_mul_emod_self_left]

lemma interp1_int {F : Type} [Field F] (N : ℕ) (g : ℤ → F) (a : ℤ)
    (h0 : 0 ≤ a) (h1 : a < (N : ℤ)) :
    interp1 N g (a : ℚ) = g a := by
  unfold interp1
  rw [Int.fract_intCast, Int.floor_intCast, Int.emod_eq_of_lt h0 h1]
  simp

/-! ## Claim theorems -/

/-- C7: inside `bubble`, the intermediate imaginary-time mesh constructed
for χ has bosonic (periodic) statistics, the same inverse temperature β,
and the same number of points as the imaginary-time mesh obtained by
Fourier-transforming the input Green function. -/
theorem bubble_chi_mesh_bosonic_same_beta_size (mw : FreqMesh) :
    (bubbleChiTimeMesh mw).statistic = Statistic.Boson ∧
    (bubbleChiTimeMesh mw).beta = (fourierTimeMesh mw).beta ∧
    (bubbleChiTimeMesh mw).size = (fourierTimeMesh mw).size :=
  ⟨rfl, rfl, rfl⟩

/-- C5: partial evaluation at a fixed momentum `k0` returns a function
over the frequency axis whose mesh is (definitionally) the frequency-axis
mesh of the original product mesh. -/
theorem sliceAtK_mesh_eq {F : Type} [Field F] (f : GfKW F) (k0 : ℚ × ℚ) :
    (sliceAtK f k0).mw = f.mw :=
  rfl

/-- C9: both CTQMC DMFT loops run for exactly `n_loops = 10` iterations,
for every impurity-solver behaviour and every initial state — no
convergence test ends them early and nothing extends them. -/
theorem dmft_loops_run_exactly_ten {I F : Type} [Field F] (iom : I → F) (U mu t : F)
    (solve1 : (Bool → I → F) → (Bool → I → F) × (Bool → I → F))
    (solve2 : (Bool × Fin 2 → I → F) → (Bool × Fin 2 → I → F) × (Bool × Fin 2 → I → F))
    (st1 : SolverState1 I F) (st2 : SolverState2 I F) :
    (oneBandLoop iom U t solve1 st1).length = 10 ∧
    (twoBandLoop iom mu t solve2 st2).length = 10 := by
  constructor
  · rw [oneBandLoop, iterTrace_length]; rfl
  · rw [twoBandLoop, iterTraceIdx_length]; rfl

/-- C3: whenever either Bethe-lattice DMFT loop updates the Weiss field,
every block receives the single self-consistency expression
`inverse(iω_n + μ − t²·g)` — pointwise in the Matsubara index, with no
momentum sum — where `μ = U/2` in the half-filled single-band script (at
every iteration) and `μ = mu` in the two-band script (at every iteration
`i + 1 ≥ 1`). -/
theorem bethe_selfconsistency_update {I F : Type} [Field F] (iom : I → F) (U mu t : F)
    (solve1 : (Bool → I → F) → (Bool → I → F) × (Bool → I → F))
    (solve2 : (Bool × Fin 2 → I → F) → (Bool × Fin 2 → I → F) × (Bool × Fin 2 → I → F))
    (st1 : SolverState1 I F) (st2 : SolverState2 I F) (i : ℕ)
    (b : Bool) (c : Bool × Fin 2) (w : I) :
    (oneBandIter iom U t solve1 st1).G0 b w
      = (iom w + U / 2 - t ^ 2 * symmG1 st1 w)⁻¹ ∧
    (twoBandIter iom mu t solve2 (i + 1) st2).G0 c w
      = (iom w + mu - t ^ 2 * symmG2 st2 w)⁻¹ := by
  constructor
  · rfl
  · show (if 0 < i + 1 then _ else st2.G0) c w = _
    rw [if_pos (Nat.succ_pos i)]
    rfl

/-- C4: the symmetrization before the self-consistency update is applied
inconsistently: the single-band loop uses the average
`0.5·(G_up + G_down)` at every iteration (including iteration 0), while
the two-band loop leaves the Weiss field untouched at iteration 0 and
uses the four-channel average `0.25·(G_up0 + G_up1 + G_down0 + G_down1)`
only from iteration 1 on. -/
theorem symmetrization_inconsistent_across_scripts {I F : Type} [Field F]
    (iom : I → F) (U mu t : F)
    (solve1 : (Bool → I → F) → (Bool → I → F) × (Bool → I → F))
    (solve2 : (Bool × Fin 2 → I → F) → (Bool × Fin 2 → I → F) × (Bool × Fin 2 → I → F))
    (st1 : SolverState1 I F) (st2 : SolverState2 I F) (i : ℕ)
    (b : Bool) (c : Bool × Fin 2) (w : I) :
    (oneBandIter iom U t solve1 st1).G0 b w
      = (iom w + U / 2
          - t ^ 2 * ((1 / 2 : F) * (st1.G true w + st1.G false w)))⁻¹ ∧
    (twoBandIter iom mu t solve2 0 st2).G0 = st2.G0 ∧
    (twoBandIter iom mu t solve2 (i + 1) st2).G0 c w
      = (iom w + mu
          - t ^ 2 * ((1 / 4 : F) * (st2.G (true, 0) w + st2.G (true, 1) w
              + st2.G (false, 0) w + st2.G (false, 1) w)))⁻¹ := by
  refine ⟨rfl, rfl, ?_⟩
  show (if 0 < i + 1 then _ else st2.G0) c w = _
  rw [if_pos (Nat.succ_pos i)]
  rfl

/-- C10: every state produced by the single-band DMFT loop has equal
`'up'` and `'down'` blocks in its Weiss field `G0_iw`, because each
iteration assigns both blocks the same expression built from the single
symmetrized `g` (and the solver does not write `G0_iw`). -/
theorem oneBand_G0_spin_symmetric {I F : Type} [Field F] (iom : I → F) (U t : F)
    (solve : (Bool → I → F) → (Bool → I → F) × (Bool → I → F)) :
    ∀ (n : ℕ) (st0 s : SolverState1 I F),
      s ∈ iterTrace (oneBandIter iom U t solve) n st0 → s.G0 true = s.G0 false
  | 0, _, _, hs => absurd hs (List.not_mem_nil _)
  | n + 1, st0, s, hs => by
    rcases List.mem_cons.mp hs with h | h
    · subst h
      rfl
    · exact oneBand_G0_spin_symmetric iom U t solve n _ s h

/-- Witness for C10 at a concrete instantiation: one iteration of the
loop from a concrete state, with a concrete solver stand-in. -/
theorem oneBand_G0_spin_symmetric_witness :
    (oneBandIter (fun _ => (0 : ℚ)) 1 1 wSolve1 wSt1
        ∈ iterTrace (oneBandIter (fun _ => (0 : ℚ)) 1 1 wSolve1) 1 wSt1) ∧
    (oneBandIter (fun _ => (0 : ℚ)) 1 1 wSolve1 wSt1).G0 true
      = (oneBandIter (fun _ => (0 : ℚ)) 1 1 wSolve1 wSt1).G0 false :=
  ⟨by simp [iterTrace],
   oneBand_G0_spin_symmetric (fun _ => (0 : ℚ)) 1 1 wSolve1 1 wSt1 _
     (by simp [iterTrace])⟩

/-- C1: the bubble fills `χ(r, τ)` with exactly
`2 · G(r, τ) · G(−r, β−τ)`: for every lattice point `r = (r1, r2)` and
every index `t` on the bosonic time grid, the evaluations land exactly on
stored grid values — `−r` is the coordinatewise negation with mesh
wraparound, `(N − rᵢ) mod N`, and `β − τ_t` is the periodic-domain mirror
point `τ_(nt−1−t)`. -/
theorem chi0_eq_product_of_grid_values (F : Type) [Field F] (N nt : ℕ) (beta : ℚ)
    (g : ℤ → ℤ → ℤ → F) (hb : beta ≠ 0) (hnt : 2 ≤ nt) (r1 r2 t : ℤ)
    (hr1 : 0 ≤ r1) (hr1' : r1 < (N : ℤ)) (hr2 : 0 ≤ r2) (hr2' : r2 < (N : ℤ)) :
    chi0 N nt beta g r1 r2 t
      = 2 * g (((N : ℤ) - r1) % (N : ℤ)) (((N : ℤ) - r2) % (N : ℤ)) ((nt : ℤ) - 1 - t)
          * g r1 r2 t := by
  unfold chi0 grtEval
  rw [beta_sub_tauPoint beta nt t hnt]
  rw [evalTau_tauPoint _ _ _ _ hb hnt, evalTau_tauPoint _ _ _ _ hb hnt]
  rw [Int.emod_eq_of_lt hr1 hr1', Int.emod_eq_of_lt hr2 hr2']
  rw [neg_emod_eq_sub ((N : ℕ) : ℤ) r1, neg_emod_eq_sub ((N : ℕ) : ℤ) r2]

/-- Witness for C1 on a concrete 2×2 lattice with 2 time points. -/
theorem chi0_eq_product_of_grid_values_witness :
    (1 : ℚ) ≠ 0 ∧ 2 ≤ 2 ∧
    chi0 2 2 1 gW 1 0 1 = 2 * gW 1 0 0 * gW 1 0 1 := by
  refine ⟨one_ne_zero, le_refl 2, ?_⟩
  have h := chi0_eq_product_of_grid_values ℚ 2 2 1 gW one_ne_zero (le_refl 2)
    1 0 1 (by norm_num) (by norm_num) (by norm_num) (by norm_num)
  norm_num at h
  exact h

/-- C6: evaluating a grid-valued function exactly at a momentum grid
point returns the stored grid value exactly (zero interpolation error);
the Matsubara index is a direct lookup by construction of `evalGf`, and
off-grid momenta go through the multilinear interpolation `interp2`. -/
theorem evalGf_grid_point_exact {F : Type} [Field F] (f : GfKW F) (a b n : ℤ)
    (ha0 : 0 ≤ a) (ha1 : a < (f.nk : ℤ)) (hb0 : 0 ≤ b) (hb1 : b < (f.nk : ℤ)) :
    evalGf f (a : ℚ) (b : ℚ) n = f.data a b n := by
  unfold evalGf interp2
  rw [interp1_int _ _ a ha0 ha1]
  exact interp1_int _ _ b hb0 hb1

/-- Witness for C6 on a concrete 2×2 grid at grid point `(1, 0)` and
Matsubara index 3. -/
theorem evalGf_grid_point_exact_witness :
    (0 : ℤ) ≤ 1 ∧ (1 : ℤ) < (fW.nk : ℤ) ∧
    evalGf fW 1 0 3 = fW.data 1 0 3 := by
  refine ⟨by norm_num, by norm_num [fW], ?_⟩
  have h := evalGf_grid_point_exact fW 1 0 3
    (by norm_num) (by norm_num [fW]) (by norm_num) (by norm_num [fW])
  norm_num at h
  exact h

/-- C2: the forward Fourier transform (momentum, frequency) → (real
space, imaginary time) followed by the backward transform recovers every
grid-valued function at every grid point — exactly, hence in particular
within any numerical tolerance. -/
theorem fourier_roundtrip (Nk Nw : ℕ) (f : ZMod (Nk + 1) → ZMod (Nw + 1) → ℂ) :
    FourierBack Nk Nw (FourierForward Nk Nw f) = f := by
  unfold FourierBack FourierForward
  funext k w
  rw [LinearEquiv.symm_apply_apply]
  rw [LinearEquiv.symm_apply_apply]

/-- C8: for `n_orbitals = 2`, the interaction operator `h_int` built by
the loops of `two_band.py` equals the Hubbard–Kanamori Hamiltonian
`H_HK` as displayed in the notebook (intra-orbital `U`, opposite-spin
inter-orbital `U−2J`, same-spin inter-orbital `U−3J`, spin-flip `−J`,
pair-hopping `+J`): all matrix elements agree in the Fock representation,
with `U` and `J` symbolic. -/
theorem hint_eq_kanamori : ∀ s t : FockState, matrixElem hIntTerms s t = matrixElem hHKTerms s t := by
  decide

end Tutorials
